import Mathlib

/-!
Shallow embedding of the core of `services/metaService.js` (meta-analytics):
the tiered cache, the request throttler/queue, the insight-resolution
strategy loops, the proportional fallback allocation, and the performance
scoring functions.  Numeric JS values are modelled as rationals (`ℚ`) and
integers (`ℤ`/`ℕ`); timestamps are `ℕ` milliseconds.  Fields that the code
reads through `parseFloat`/`parseInt` defaulting are modelled as the already
parsed numbers.  Disk persistence and logging are side effects outside the
data model and are not represented.
-/

/-- JavaScript `Math.round`: rounds half-way cases toward positive infinity,
so `round x = ⌊x + 1/2⌋`. -/
def jsRound (q : ℚ) : ℤ := ⌊q + 1/2⌋

/-- Numeric content of JavaScript `parseInt` on a decimal numeral: truncation
toward zero. -/
def jsTrunc (q : ℚ) : ℤ := if q < 0 then ⌈q⌉ else ⌊q⌋

/-- Whether `pat` occurs as a contiguous run at the head of `s`. -/
def charsStartWith : List Char → List Char → Bool
  | [], _ => true
  | _ :: _, [] => false
  | p :: ps, c :: cs => p == c && charsStartWith ps cs

/-- Whether `pat` occurs as a contiguous run anywhere in `s`
(JavaScript `String.prototype.includes`). -/
def charsContain (pat s : List Char) : Bool :=
  match s with
  | [] => charsStartWith pat []
  | _ :: cs => charsStartWith pat s || charsContain pat cs

/-- JavaScript `s.includes(pat)`. -/
def strContains (s pat : String) : Bool := charsContain pat.toList s.toList

/-- JavaScript `s.toLowerCase()` on the ASCII action-type labels, as a
character list. -/
def lowerChars (s : String) : List Char := s.toList.map Char.toLower

section CacheStore

/-!
## Cache Store (metaService.js lines 14-16, 29-34, 54-63, 80-109)

The constructor assigns `this.cacheDurations` twice; the second assignment
(lines 55-63) silently replaces the first (lines 29-34), so the effective
duration table is the second one and it has no `default` key.  In
`setCache`, `this.cacheDurations[cacheType] || this.cacheDurations.default`
is then `undefined` for any category outside the second table, and
`Date.now() + undefined` is `NaN`.  We model a stored expiry as
`Option ℕ`, with `none` standing for `NaN`: in `getFromCache` both
`now < NaN` and `now >= NaN` are false, so a `NaN` expiry produces neither
a hit nor an eviction, exactly as `none` does below.
-/

variable {α : Type}

/-- The effective per-category TTL table: the second `cacheDurations`
assignment (lines 55-63), which overwrites the first.  `none` models a
missing key (JS `undefined`). -/
def cacheDurations : String → Option ℕ
  | "account" => some 600000
  | "ads" => some 600000
  | "campaigns" => some 600000
  | "adsets" => some 600000
  | "todaySpend" => some 120000
  | "campaignInsights" => some 300000
  | "creatives" => some 1800000
  | _ => none

/-- JavaScript `a || b` on the duration lookups.  All configured durations
are nonzero, so `||` coincides with taking the first defined value. -/
def jsOrOpt (a b : Option ℕ) : Option ℕ :=
  match a with
  | some x => some x
  | none => b

/-- The two `Map`s of the cache store (`this.cache`, `this.cacheExpiry`),
as association lists with at most one binding per key.  The expiry value
`none` models a stored `NaN`. -/
structure MetaCache (α : Type) where
  cache : List (String × α)
  cacheExpiry : List (String × Option ℕ)

/-- A fresh service instance: both maps empty. -/
def MetaCache.empty (α : Type) : MetaCache α := ⟨[], []⟩

/-- `getFromCache` (lines 80-94): returns the value iff the stored expiry is
a real timestamp strictly in the future; an expired entry is evicted as a
side effect; a `NaN` expiry (`none`) fails both comparisons, so it neither
hits nor evicts.  Returns the value and the possibly-updated store. -/
def getFromCache (st : MetaCache α) (key : String) (now : ℕ) :
    Option α × MetaCache α :=
  match st.cacheExpiry.lookup key with
  | some (some e) =>
      if now < e then (st.cache.lookup key, st)
      else (none,
        ⟨st.cache.filter (fun p => !(p.1 == key)),
         st.cacheExpiry.filter (fun p => !(p.1 == key))⟩)
  | some none => (none, st)
  | none => (none, st)

/-- `setCache` (lines 96-109): stores the value with expiry
`now + (cacheDurations[cacheType] || cacheDurations.default)`; when both
lookups are undefined the sum is `NaN`, modelled as `none`.  The periodic
file save is I/O and not modelled. -/
def setCache (st : MetaCache α) (key : String) (v : α) (cacheType : String)
    (now : ℕ) : MetaCache α :=
  let duration := jsOrOpt (cacheDurations cacheType) (cacheDurations "default")
  let expiry := duration.map (fun d => now + d)
  ⟨(key, v) :: st.cache.filter (fun p => !(p.1 == key)),
   (key, expiry) :: st.cacheExpiry.filter (fun p => !(p.1 == key))⟩

end CacheStore

section Scoring

/-!
## Enrichment and scoring (metaService.js lines 374-423, 1538-1684)

A metrics record as read by `calculatePerformanceScore` and the sub-score
functions: numeric fields after the code's `parseFloat(x || 0)` /
`parseInt(x || 0)` normalization, plus the two parallel action lists.
-/

/-- One element of an `actions` / `action_values` array: an action type
label and its reported numeric value. -/
structure ActionEntry where
  action_type : String
  value : ℚ
deriving DecidableEq

/-- A raw insight record with fields already parsed to numbers. -/
structure Insights where
  spend : ℚ
  impressions : ℤ
  clicks : ℤ
  ctr : ℚ
  cpm : ℚ
  cpc : ℚ
  actions : List ActionEntry
  action_values : List ActionEntry
deriving DecidableEq

/-- The purchase-like filter of `calculateROASScore` (lines 1587-1597):
keeps action types containing purchase/sale/order/checkout words (or equal
to `conversion`) and drops funnel steps. -/
def isPurchaseLikeValue (a : ActionEntry) : Bool :=
  let t := lowerChars a.action_type
  (charsContain "purchase".toList t || t == "conversion".toList ||
      charsContain "sale".toList t || charsContain "order".toList t ||
      charsContain "checkout".toList t) &&
    !charsContain "view_content".toList t && !charsContain "add_to_cart".toList t &&
    !charsContain "initiate_checkout".toList t

/-- The conversion value resolved by `calculateROASScore` (lines 1583-1606):
unique purchase-like action values deduplicated by `Set`, then
`Math.max` over them; `0` when no purchase-like entry exists. -/
def totalConversionValue (insights : Insights) : ℚ :=
  let purchaseActionValues := insights.action_values.filter isPurchaseLikeValue
  match (purchaseActionValues.map (fun a => a.value)).dedup with
  | [] => 0
  | x :: xs => xs.foldl max x

/-- The ROAS tier chain of `calculateROASScore` (lines 1610-1619). -/
def roasTierCode (roas : ℚ) : ℤ :=
  if roas ≥ 4 then 100
  else if roas ≥ 3 then 90
  else if roas ≥ 5/2 then 80
  else if roas ≥ 2 then 70
  else if roas ≥ 3/2 then 60
  else if roas ≥ 1 then 50
  else if roas ≥ 1/2 then 30
  else if roas > 0 then 10
  else 0

/-- `calculateROASScore` (lines 1580-1620). -/
def calculateROASScore (insights : Insights) (spend : ℚ) : ℤ :=
  if spend = 0 then 0
  else roasTierCode (totalConversionValue insights / spend)

/-- `calculateCTRScore` (lines 1622-1633). -/
def calculateCTRScore (ctr : ℚ) : ℤ :=
  if ctr ≥ 3 then 100
  else if ctr ≥ 2 then 90
  else if ctr ≥ 3/2 then 80
  else if ctr ≥ 1 then 70
  else if ctr ≥ 1/2 then 60
  else if ctr ≥ 3/10 then 50
  else if ctr ≥ 1/10 then 30
  else if ctr > 0 then 10
  else 0

/-- `calculateClickScore` (lines 1635-1656): a blend of a rate-derived score
(70%) and an absolute-volume tier (30%); the `else return 0` of the volume
chain exits the whole function when `clicks < 1`. -/
def calculateClickScore (clicks impressions : ℤ) : ℤ :=
  if impressions = 0 then 0
  else if clicks < 1 then 0
  else
    let volumeScore : ℤ :=
      if clicks ≥ 1000 then 100
      else if clicks ≥ 500 then 90
      else if clicks ≥ 200 then 80
      else if clicks ≥ 100 then 70
      else if clicks ≥ 50 then 60
      else if clicks ≥ 20 then 50
      else if clicks ≥ 10 then 40
      else if clicks ≥ 5 then 30
      else 20
    let clickRate : ℚ := (clicks : ℚ) / (impressions : ℚ) * 100
    let rateScore : ℚ := min (clickRate * 20) 100
    jsRound (rateScore * (7/10) + (volumeScore : ℚ) * (3/10))

/-- `calculateCPMScore` (lines 1658-1669): lower CPM scores higher. -/
def calculateCPMScore (cpm : ℚ) : ℤ :=
  if cpm ≤ 5 then 100
  else if cpm ≤ 10 then 90
  else if cpm ≤ 15 then 80
  else if cpm ≤ 20 then 70
  else if cpm ≤ 30 then 60
  else if cpm ≤ 50 then 50
  else if cpm ≤ 75 then 30
  else if cpm ≤ 100 then 10
  else 0

/-- `calculateCPCScore` (lines 1671-1684): zero when there are no clicks,
otherwise lower CPC scores higher. -/
def calculateCPCScore (cpc : ℚ) (clicks : ℤ) : ℤ :=
  if clicks = 0 then 0
  else if cpc ≤ 1/2 then 100
  else if cpc ≤ 1 then 90
  else if cpc ≤ 3/2 then 80
  else if cpc ≤ 2 then 70
  else if cpc ≤ 3 then 60
  else if cpc ≤ 5 then 50
  else if cpc ≤ 8 then 30
  else if cpc ≤ 12 then 10
  else 0

/-- `calculatePerformanceScore` (lines 1539-1577): returns `0` when spend or
impressions are zero, otherwise the rounded, capped weighted sum of the five
sub-scores with weights 0.40 / 0.25 / 0.20 / 0.08 / 0.07. -/
def calculatePerformanceScore (insights : Insights) : ℤ :=
  if insights.spend = 0 ∨ insights.impressions = 0 then 0
  else
    let sRoas := calculateROASScore insights insights.spend
    let sCtr := calculateCTRScore insights.ctr
    let sClicks := calculateClickScore insights.clicks insights.impressions
    let sCpm := calculateCPMScore insights.cpm
    let sCpc := calculateCPCScore insights.cpc insights.clicks
    let weightedScore : ℚ :=
      (sRoas : ℚ) * (40/100) + (sCtr : ℚ) * (25/100) +
        (sClicks : ℚ) * (20/100) + (sCpm : ℚ) * (8/100) +
        (sCpc : ℚ) * (7/100)
    jsRound (min weightedScore 100)

/-- The exact-match purchase action filter of `getResultsData`
(lines 408-414). -/
def isPurchaseActionType (t : String) : Bool :=
  t == "purchase" || t == "onsite_web_purchase" ||
    t == "onsite_web_app_purchase" || t == "omni_purchase" ||
    t == "web_in_store_purchase"

/-- `getResultsData` (lines 402-423), the purchase deduplication inside
`getTodaySpendData`: the result count is `Math.max(...values, 0)` over the
`parseInt`-ed values of the purchase-typed actions, and the cost per result
is `spend / results` (zero when there are no results). -/
def getResultsData (spend : ℚ) (actions : List ActionEntry) : ℤ × ℚ :=
  let purchaseActions := actions.filter (fun a => isPurchaseActionType a.action_type)
  let results := (purchaseActions.map (fun a => jsTrunc a.value)).foldl max 0
  let costOfResults := if results > 0 then spend / (results : ℚ) else 0
  (results, costOfResults)

end Scoring

section Strategies

/-!
## Insight resolution strategies (metaService.js lines 664-857, 978-1080, 1743-1809)

Each strategy loop iterates over an ordered list of attribution approaches;
issuing one approach's request either throws (network/HTTP failure) or
returns a response whose `data` array we model directly.  `FetchOutcome`
records, per approach in order, what its request produced.
-/

/-- One record of an insights response, with the fields the acceptance
checks read.  Absent fields are `none` / `[]`. -/
structure InsightRecord where
  date_start : Option String
  date_stop : Option String
  spend : Option ℚ
  impressions : Option ℤ
  clicks : Option ℤ
  actions : List ActionEntry
deriving DecidableEq

/-- The `{}` default taken by `response.data[0] || {}` (line 1034). -/
def emptyInsightRecord : InsightRecord := ⟨none, none, none, none, none, []⟩

/-- What one approach's request produced: a response carrying a `data`
array, or a thrown error. -/
inductive FetchOutcome where
  | ok (data : List InsightRecord)
  | err
deriving DecidableEq

/-- JavaScript truthiness of an optional string field: absent (`undefined`)
and the empty string are falsy. -/
def jsTruthyStr : Option String → Bool
  | none => false
  | some s => !(s == "")

/-- The strict date check shared by the batch `getAdInsights`
(lines 740-742) and `getAdSpecificInsights` (lines 1785-1787):
`date_start` and `date_stop` present, equal to each other, and equal to
the requested `since` date. -/
def hasDateSpecificData (r : InsightRecord) (since : String) : Bool :=
  jsTruthyStr r.date_start && jsTruthyStr r.date_stop &&
    r.date_start == r.date_stop && r.date_start == some since

/-- The approach loop of the batch `getAdInsights` (lines 731-794): an
approach is accepted only when its response has at least one record and the
first record passes the strict date check; otherwise (or on a thrown error)
the next approach is tried.  `none` models falling through to the
proportional fallback after the loop. -/
def batchGetAdInsightsLoop (since : String) :
    List FetchOutcome → Option (List InsightRecord)
  | [] => none
  | .err :: rest => batchGetAdInsightsLoop since rest
  | .ok data :: rest =>
      match data with
      | [] => batchGetAdInsightsLoop since rest
      | firstAd :: _ =>
          if hasDateSpecificData firstAd since then some data
          else batchGetAdInsightsLoop since rest

/-- The approach loop of `getAdSpecificInsights` (lines 1775-1806): accepts
an approach only when `response.data[0]` exists and passes the strict date
check; returns `null` (`none`) when no approach matches. -/
def adSpecificInsightsLoop (since : String) :
    List FetchOutcome → Option InsightRecord
  | [] => none
  | .err :: rest => adSpecificInsightsLoop since rest
  | .ok data :: rest =>
      match data with
      | [] => adSpecificInsightsLoop since rest
      | d :: _ =>
          if hasDateSpecificData d since then some d
          else adSpecificInsightsLoop since rest

/-- The lenient `isDateSpecific` flag of the per-ad `getAdInsights`
(lines 1038-1044).  The numeric fields arrive as nonempty numeric strings,
so their JS truthiness is modelled as presence (`isSome`).  The code
computes and logs this flag, but the acceptance test on line 1057 is only
`data && typeof data === 'object'`, so the flag does not influence which
approach is accepted. -/
def perAdIsDateSpecific (r : InsightRecord) (since : String) : Bool :=
  jsTruthyStr r.date_start && jsTruthyStr r.date_stop &&
    (r.date_start == some since || r.date_start == r.date_stop ||
      (r.spend.isSome && decide (r.spend.getD 0 ≥ 0)) ||
      !r.actions.isEmpty ||
      (r.impressions.isSome && decide (r.impressions.getD 0 ≥ 0)) ||
      (r.clicks.isSome && decide (r.clicks.getD 0 ≥ 0)))

/-- The approach loop of the per-ad `getAdInsights` (lines 1021-1070): when
a request succeeds, `data = response.data[0] || {}` is always an object, so
the `data && typeof data === 'object'` test on line 1057 accepts it
unconditionally — even an empty `data` array yields the `{}` default and is
accepted.  Only a thrown request error moves on to the next approach. -/
def perAdGetAdInsightsLoop : List FetchOutcome → Option InsightRecord
  | [] => none
  | .err :: rest => perAdGetAdInsightsLoop rest
  | .ok data :: _ => some (data.headD emptyInsightRecord)

/-- The per-ad proportional allocation of `processAdsData`
(lines 1371-1396): with positive total ad spend `S` and positive ad spend
`s`, the ad is given `Math.round(N * s / S)` purchase conversions; the
proportional purchase value entry `V * s / S` is pushed only inside the
`adConversions > 0` branch (and only when itself positive).  When the guard
fails — in particular for an ad with zero spend — no purchase entry is
pushed, i.e. zero conversions and zero value.  Returns
(allocated conversion count, allocated conversion value). -/
def allocateProportional (totalAdSpend : ℚ) (totalAccountConversions : ℤ)
    (totalAccountConversionValue : ℚ) (adSpend : ℚ) : ℤ × ℚ :=
  if totalAdSpend > 0 ∧ adSpend > 0 then
    let adSpendRatio := adSpend / totalAdSpend
    let adConversions := jsRound ((totalAccountConversions : ℚ) * adSpendRatio)
    let adConversionValue := totalAccountConversionValue * adSpendRatio
    if adConversions > 0 then
      (adConversions, if adConversionValue > 0 then adConversionValue else 0)
    else (0, 0)
  else (0, 0)

end Strategies

section Throttler

/-!
## Request throttler / queue (metaService.js lines 18-23, 198-246)

`makeRequest` pushes a `{endpoint, params, cacheType, resolve, reject}`
record and kicks `processRequestQueue`.  The drain loop runs under the
`isProcessingQueue` flag, pops the front request, sleeps until
`requestDelay` has elapsed since `lastRequestTime`, executes the request
and resolves it; `lastRequestTime` is updated only after a successful
attempt.  A 429 failure sleeps `5000` ms and `unshift`s the same request
back to the front; any other failure rejects the request.

We model a run by giving each queued request a script of attempt outcomes
(consumed one per dispatch) with the wall-clock duration of each attempt,
and record the observable events: dispatches to the Upstream Client with
their start times, and `resolve`/`reject` deliveries to the caller,
identified by the request id.  A script is intended to hold at least one
outcome; an exhausted script is treated as an immediate generic failure.
-/

/-- The result of one dispatch attempt, with the attempt's duration. -/
inductive Outcome where
  | success (duration : ℕ)
  | rateLimited (duration : ℕ)
  | failure (duration : ℕ)
deriving DecidableEq

/-- A queued request: its caller's identity and the script of outcomes its
successive dispatch attempts will produce. -/
structure QueuedRequest where
  id : ℕ
  outcomes : List Outcome
deriving DecidableEq

/-- Observable events of a drain run. -/
inductive Event where
  | dispatch (id : ℕ) (time : ℕ)
  | resolve (id : ℕ)
  | reject (id : ℕ)
deriving DecidableEq

/-- Whether an attempt outcome is the rate-limited (HTTP 429) one. -/
def isRateLimited : Outcome → Bool
  | Outcome.rateLimited _ => true
  | _ => false

/-- `this.requestDelay = 25` (line 22). -/
def requestDelay : ℕ := 25

/-- The fixed 5-second backoff after a 429 (line 237). -/
def rateLimitBackoff : ℕ := 5000

/-- Fuel bound for the drain loop: every iteration either consumes one
outcome or removes one request. -/
def qMeasure (qs : List QueuedRequest) : ℕ :=
  (qs.map (fun r => r.outcomes.length)).sum + qs.length

/-- The body of the drain loop (lines 219-243).  `lastRequestTime` is the
time the previous request finished successfully (0 initially); `now` is the
current clock.  The dispatch happens at `max now (lastRequestTime +
requestDelay)` — the sleep on line 226.  On success the request is resolved
and `lastRequestTime` becomes the completion time; on a 429 the loop sleeps
`rateLimitBackoff` and re-inserts the request at the front with the rest of
its script; on any other failure the request is rejected and
`lastRequestTime` is left unchanged (the code updates it only on line 231,
after a successful attempt). -/
def drainAux : ℕ → List QueuedRequest → ℕ → ℕ → List Event
  | 0, _, _, _ => []
  | _ + 1, [], _, _ => []
  | fuel + 1, req :: rest, lastRequestTime, now =>
      match req.outcomes with
      | [] => Event.reject req.id :: drainAux fuel rest lastRequestTime now
      | o :: os =>
          let t := max now (lastRequestTime + requestDelay)
          match o with
          | .success d =>
              Event.dispatch req.id t :: Event.resolve req.id ::
                drainAux fuel rest (t + d) (t + d)
          | .failure d =>
              Event.dispatch req.id t :: Event.reject req.id ::
                drainAux fuel rest lastRequestTime (t + d)
          | .rateLimited d =>
              Event.dispatch req.id t ::
                drainAux fuel ({ req with outcomes := os } :: rest)
                  lastRequestTime (t + d + rateLimitBackoff)

/-- The full drain of a queue, with enough fuel for every attempt. -/
def drain (qs : List QueuedRequest) (lastRequestTime now : ℕ) : List Event :=
  drainAux (qMeasure qs + 1) qs lastRequestTime now

/-- The mutable throttler state (lines 19-23). -/
structure ThrottleState where
  requestQueue : List QueuedRequest
  isProcessingQueue : Bool
  lastRequestTime : ℕ
deriving DecidableEq

/-- The entry guard of `processRequestQueue` (lines 212-217): a call made
while a drain loop is already running, or with an empty queue, returns
immediately and emits no events; otherwise the queue is drained. -/
def processRequestQueue (st : ThrottleState) (now : ℕ) : List Event :=
  if st.isProcessingQueue || st.requestQueue.isEmpty then []
  else drain st.requestQueue st.lastRequestTime now

/-- The dispatches of an event list, in order, as (id, time) pairs. -/
def dispatches (evs : List Event) : List (ℕ × ℕ) :=
  evs.filterMap fun e =>
    match e with
    | .dispatch i t => some (i, t)
    | _ => none

end Throttler

section MethodTable

/-!
## Duplicate `getAdInsights` definitions (metaService.js lines 665, 978)

The `MetaService` class body defines a method named `getAdInsights` twice:
the batch variant taking an options object (line 665) and, later, the
per-ad variant taking `(adId, dateRange, _t)` (line 978).
-/

/-- The two `getAdInsights` definitions of the class body. -/
inductive AdInsightsVariant where
  | batch
  | perAd
deriving DecidableEq

/-- The `getAdInsights` definitions in source order. -/
def metaServiceGetAdInsightsDefs : List (String × AdInsightsVariant) :=
  [("getAdInsights", AdInsightsVariant.batch),
   ("getAdInsights", AdInsightsVariant.perAd)]

/-- JavaScript class-body semantics: each method definition assigns the
prototype property in textual order, a later definition overwriting an
earlier one of the same name; method dispatch reads the final table. -/
def jsClassMethod {β : Type} (defs : List (String × β)) (name : String) :
    Option β :=
  defs.foldl (fun acc p => if p.1 == name then some p.2 else acc) none

end MethodTable

section SpecModels

/-!
## Definitions taken from the spec's words, and concrete test records
-/

/-- The ROAS sub-score table as the spec writes it (§4.5):
`≥4.0→100, ≥3.0→90, ≥2.5→80, ≥2.0→70, ≥1.5→60, ≥1.0→50, ≥0.5→30, >0→10,
else 0`.  To be compared with the tier chain embedded from the code. -/
def roasTierSpec (roas : ℚ) : ℤ :=
  if roas ≥ 4 then 100
  else if roas ≥ 3 then 90
  else if roas ≥ 5/2 then 80
  else if roas ≥ 2 then 70
  else if roas ≥ 3/2 then 60
  else if roas ≥ 1 then 50
  else if roas ≥ 1/2 then 30
  else if roas > 0 then 10
  else 0

/-- A metrics record with spend $100.00 and one purchase conversion value
entry of $250.00. -/
def c4Example : Insights :=
  ⟨100, 1000, 10, 1, 1, 1, [], [⟨"purchase", 250⟩]⟩

/-- Three purchase-equivalent action-type records reporting 5, 5 and 8 for
the same entity and window. -/
def c5Example : List ActionEntry :=
  [⟨"purchase", 5⟩, ⟨"onsite_web_purchase", 5⟩, ⟨"omni_purchase", 8⟩]

/-- A response record reporting the single day 2024-01-01. -/
def c2MismatchRecord : InsightRecord :=
  ⟨some "2024-01-01", some "2024-01-01", some 12, some 100, some 10, []⟩

/-- A response record reporting the single day 2024-01-02. -/
def c2MatchRecord : InsightRecord :=
  ⟨some "2024-01-02", some "2024-01-02", some 12, some 100, some 10, []⟩

end SpecModels

section TierChains

/-!
## Generic tier chains

The four sub-score tables are threshold chains.  To prove their
monotonicity once, we give two generic chain evaluators that the embedded
tables unfold to definitionally.
-/

/-- Comparison kind of one lower-bound tier threshold: `x ≥ t` or `x > t`. -/
inductive TCmp where
  | ge
  | gt
deriving DecidableEq

/-- A chain of lower-bound thresholds (ROAS and CTR tables): the first
satisfied threshold yields its value, otherwise `0`. -/
def upChain : List (TCmp × ℚ × ℤ) → ℚ → ℤ
  | [], _ => 0
  | (TCmp.ge, t, v) :: rest, x => if x ≥ t then v else upChain rest x
  | (TCmp.gt, t, v) :: rest, x => if x > t then v else upChain rest x

/-- A chain of upper-bound thresholds (CPM and CPC tables): the first
satisfied threshold yields its value, otherwise `0`. -/
def downChain : List (ℚ × ℤ) → ℚ → ℤ
  | [], _ => 0
  | (t, v) :: rest, x => if x ≤ t then v else downChain rest x

/-- The values of an up chain are nonnegative and weakly descending. -/
def upDescending : List (TCmp × ℚ × ℤ) → Prop
  | [] => True
  | (_, _, v) :: rest => 0 ≤ v ∧ (∀ e ∈ rest, e.2.2 ≤ v) ∧ upDescending rest

/-- The values of a down chain are nonnegative and weakly descending. -/
def downDescending : List (ℚ × ℤ) → Prop
  | [] => True
  | (_, v) :: rest => 0 ≤ v ∧ (∀ e ∈ rest, e.2 ≤ v) ∧ downDescending rest

/-- The ROAS table (lines 1611-1619) as an up chain. -/
def roasChain : List (TCmp × ℚ × ℤ) :=
  [(TCmp.ge, 4, 100), (TCmp.ge, 3, 90), (TCmp.ge, 5/2, 80), (TCmp.ge, 2, 70),
   (TCmp.ge, 3/2, 60), (TCmp.ge, 1, 50), (TCmp.ge, 1/2, 30), (TCmp.gt, 0, 10)]

/-- The CTR table (lines 1624-1632) as an up chain. -/
def ctrChain : List (TCmp × ℚ × ℤ) :=
  [(TCmp.ge, 3, 100), (TCmp.ge, 2, 90), (TCmp.ge, 3/2, 80), (TCmp.ge, 1, 70),
   (TCmp.ge, 1/2, 60), (TCmp.ge, 3/10, 50), (TCmp.ge, 1/10, 30),
   (TCmp.gt, 0, 10)]

/-- The CPM table (lines 1660-1668) as a down chain. -/
def cpmChain : List (ℚ × ℤ) :=
  [(5, 100), (10, 90), (15, 80), (20, 70), (30, 60), (50, 50), (75, 30),
   (100, 10)]

/-- The CPC table (lines 1675-1683) as a down chain. -/
def cpcChain : List (ℚ × ℤ) :=
  [(1/2, 100), (1, 90), (3/2, 80), (2, 70), (3, 60), (5, 50), (8, 30),
   (12, 10)]

end TierChains

section HelperLemmas

/-- Unfolding of `qMeasure` at a cons cell. -/
theorem qMeasure_cons (r : QueuedRequest) (rest : List QueuedRequest) :
    qMeasure (r :: rest) = r.outcomes.length + 1 + qMeasure rest := by
  simp [qMeasure]
  omega

/-- `drainAux` does not depend on the fuel, as long as the fuel exceeds the
number of loop iterations. -/
theorem drainAux_congr_fuel :
    ∀ (fuel fuel' : ℕ) (qs : List QueuedRequest) (l n : ℕ),
      qMeasure qs < fuel → qMeasure qs < fuel' →
      drainAux fuel qs l n = drainAux fuel' qs l n := by
  intro fuel
  induction fuel with
  | zero => intro fuel' qs l n h _; exact absurd h (Nat.not_lt_zero _)
  | succ fuel ih =>
    intro fuel' qs l n h h'
    rcases fuel' with _ | fuel'
    · exact absurd h' (Nat.not_lt_zero _)
    rcases qs with _ | ⟨req, rest⟩
    · rfl
    rw [qMeasure_cons] at h h'
    rcases hro : req.outcomes with _ | ⟨o, os⟩ <;> rw [hro] at h h'
    · simp only [drainAux, hro]
      rw [ih fuel' rest l n (by omega) (by omega)]
    · simp only [drainAux, hro]
      rcases o with d | d | d
      · simp only []
        rw [ih fuel' rest _ _ (by simp at h ⊢; omega) (by simp at h' ⊢; omega)]
      · simp only []
        rw [ih fuel' ({ req with outcomes := os } :: rest) l _
          (by rw [qMeasure_cons]; simp at h ⊢; omega)
          (by rw [qMeasure_cons]; simp at h' ⊢; omega)]
      · simp only []
        rw [ih fuel' rest _ _ (by simp at h ⊢; omega) (by simp at h' ⊢; omega)]


/-- Draining an empty queue emits no events. -/
theorem drain_nil (l n : ℕ) : drain [] l n = [] := rfl

/-- The dispatches of an empty event list. -/
theorem dispatches_nil : dispatches [] = [] := rfl

/-- A dispatch event contributes its (id, time) pair. -/
theorem dispatches_cons_dispatch (i t : ℕ) (evs : List Event) :
    dispatches (Event.dispatch i t :: evs) = (i, t) :: dispatches evs := rfl

/-- A resolve event contributes no dispatch. -/
theorem dispatches_cons_resolve (i : ℕ) (evs : List Event) :
    dispatches (Event.resolve i :: evs) = dispatches evs := rfl

/-- A reject event contributes no dispatch. -/
theorem dispatches_cons_reject (i : ℕ) (evs : List Event) :
    dispatches (Event.reject i :: evs) = dispatches evs := rfl

/-- Unfolding `drain` when the front request's next attempt succeeds: it is
dispatched after the throttle wait, resolved, and the loop continues with
`lastRequestTime` set to the completion time. -/
theorem drain_cons_success (b : QueuedRequest) (rest : List QueuedRequest)
    (d : ℕ) (os : List Outcome) (l n : ℕ)
    (hb : b.outcomes = Outcome.success d :: os) :
    drain (b :: rest) l n =
      Event.dispatch b.id (max n (l + requestDelay)) :: Event.resolve b.id ::
        drain rest (max n (l + requestDelay) + d) (max n (l + requestDelay) + d) := by
  obtain ⟨bid, bout⟩ := b
  simp only at hb
  subst hb
  have h1 : drain (⟨bid, Outcome.success d :: os⟩ :: rest) l n =
      Event.dispatch bid (max n (l + requestDelay)) :: Event.resolve bid ::
        drainAux (qMeasure (⟨bid, Outcome.success d :: os⟩ :: rest)) rest
          (max n (l + requestDelay) + d) (max n (l + requestDelay) + d) := rfl
  rw [h1, drain,
    drainAux_congr_fuel (qMeasure (⟨bid, Outcome.success d :: os⟩ :: rest))
      (qMeasure rest + 1) rest _ _ (by rw [qMeasure_cons]; omega) (by omega)]

/-- Unfolding `drain` when the front request's next attempt fails with a
non-rate-limit error: it is dispatched, rejected (delivered to its caller
as a failure), and the loop moves on to the remaining queue without any
retry; `lastRequestTime` is not updated. -/
theorem drain_cons_failure (b : QueuedRequest) (rest : List QueuedRequest)
    (d : ℕ) (os : List Outcome) (l n : ℕ)
    (hb : b.outcomes = Outcome.failure d :: os) :
    drain (b :: rest) l n =
      Event.dispatch b.id (max n (l + requestDelay)) :: Event.reject b.id ::
        drain rest l (max n (l + requestDelay) + d) := by
  obtain ⟨bid, bout⟩ := b
  simp only at hb
  subst hb
  have h1 : drain (⟨bid, Outcome.failure d :: os⟩ :: rest) l n =
      Event.dispatch bid (max n (l + requestDelay)) :: Event.reject bid ::
        drainAux (qMeasure (⟨bid, Outcome.failure d :: os⟩ :: rest)) rest
          l (max n (l + requestDelay) + d) := rfl
  rw [h1, drain,
    drainAux_congr_fuel (qMeasure (⟨bid, Outcome.failure d :: os⟩ :: rest))
      (qMeasure rest + 1) rest _ _ (by rw [qMeasure_cons]; omega) (by omega)]

/-- Unfolding `drain` when the front request's next attempt is
rate-limited: it is dispatched, not failed, and after the fixed backoff it
is re-inserted at the front of the queue with the rest of its script. -/
theorem drain_cons_rateLimited (b : QueuedRequest) (rest : List QueuedRequest)
    (d : ℕ) (os : List Outcome) (l n : ℕ)
    (hb : b.outcomes = Outcome.rateLimited d :: os) :
    drain (b :: rest) l n =
      Event.dispatch b.id (max n (l + requestDelay)) ::
        drain ({ b with outcomes := os } :: rest) l
          (max n (l + requestDelay) + d + rateLimitBackoff) := by
  obtain ⟨bid, bout⟩ := b
  simp only at hb
  subst hb
  have h1 : drain (⟨bid, Outcome.rateLimited d :: os⟩ :: rest) l n =
      Event.dispatch bid (max n (l + requestDelay)) ::
        drainAux (qMeasure (⟨bid, Outcome.rateLimited d :: os⟩ :: rest))
          (⟨bid, os⟩ :: rest) l
          (max n (l + requestDelay) + d + rateLimitBackoff) := rfl
  rw [h1, drain,
    drainAux_congr_fuel (qMeasure (⟨bid, Outcome.rateLimited d :: os⟩ :: rest))
      (qMeasure (⟨bid, os⟩ :: rest) + 1) (⟨bid, os⟩ :: rest) _ _
      (by rw [qMeasure_cons, qMeasure_cons]; simp) (by omega)]

/-- Dispatch events of an all-success drain run: the requests are
dispatched in queue (FIFO) order, every dispatch starts at or after
`lastRequestTime + requestDelay`, and consecutive dispatches are separated
by at least `requestDelay`. -/
theorem drainSuccessSpec :
    ∀ (qs : List QueuedRequest) (l n : ℕ),
      (∀ r ∈ qs, ∃ d, r.outcomes = [Outcome.success d]) →
      (dispatches (drain qs l n)).map Prod.fst = qs.map (fun r => r.id) ∧
        (∀ p ∈ dispatches (drain qs l n), l + requestDelay ≤ p.2) ∧
        List.Chain' (fun a b : ℕ × ℕ => a.2 + requestDelay ≤ b.2)
          (dispatches (drain qs l n)) := by
  intro qs
  induction qs with
  | nil => intro l n _; simp [drain_nil, dispatches_nil]
  | cons r rest ih =>
    intro l n hall
    obtain ⟨d, hr⟩ := hall r (List.mem_cons_self r rest)
    have hrest : ∀ q ∈ rest, ∃ d, q.outcomes = [Outcome.success d] :=
      fun q hq => hall q (List.mem_cons_of_mem r hq)
    have hih := ih (max n (l + requestDelay) + d) (max n (l + requestDelay) + d) hrest
    rw [drain_cons_success r rest d [] l n hr, dispatches_cons_dispatch,
      dispatches_cons_resolve]
    refine ⟨?_, ?_, ?_⟩
    · rw [List.map_cons, List.map_cons, hih.1]
    · intro p hp
      rcases List.mem_cons.mp hp with rfl | hp
      · exact Nat.le_max_right n (l + requestDelay)
      · have h2 := hih.2.1 p hp
        have h3 := Nat.le_max_right n (l + requestDelay)
        omega
    · rw [List.chain'_cons']
      refine ⟨?_, hih.2.2⟩
      intro p hp
      have hmem := List.mem_of_mem_head? hp
      have h2 := hih.2.1 p hmem
      omega

/-- Dispatch order of a drain run in which every request's next attempt is
not rate-limited (a success or a generic failure): the requests are
dispatched in FIFO order, one dispatch each — only the 429 path re-fronts
a request. -/
theorem drainNoRateLimitFIFO :
    ∀ (qs : List QueuedRequest) (l n : ℕ),
      (∀ r ∈ qs, ∃ o os, r.outcomes = o :: os ∧ isRateLimited o = false) →
      (dispatches (drain qs l n)).map Prod.fst = qs.map (fun r => r.id) := by
  intro qs
  induction qs with
  | nil => intro l n _; simp [drain_nil, dispatches_nil]
  | cons r rest ih =>
    intro l n hall
    obtain ⟨o, os, hr, hno⟩ := hall r (List.mem_cons_self r rest)
    have hrest : ∀ q ∈ rest, ∃ o os, q.outcomes = o :: os ∧
        isRateLimited o = false :=
      fun q hq => hall q (List.mem_cons_of_mem r hq)
    cases o with
    | success d =>
        rw [drain_cons_success r rest d os l n hr, dispatches_cons_dispatch,
          dispatches_cons_resolve, List.map_cons, List.map_cons, ih _ _ hrest]
    | rateLimited d => simp [isRateLimited] at hno
    | failure d =>
        rw [drain_cons_failure r rest d os l n hr, dispatches_cons_dispatch,
          dispatches_cons_reject, List.map_cons, List.map_cons, ih _ _ hrest]

/-- The seed of a left fold by `max` is a lower bound of the result. -/
theorem foldlMaxInitLe (l : List ℤ) (init : ℤ) : init ≤ l.foldl max init := by
  induction l generalizing init with
  | nil => exact le_refl init
  | cons a as ih => exact le_trans (le_max_left init a) (ih (max init a))

/-- Every list element is a lower bound of a left fold by `max`. -/
theorem memLeFoldlMax (x : ℤ) :
    ∀ (l : List ℤ) (init : ℤ), x ∈ l → x ≤ l.foldl max init := by
  intro l
  induction l with
  | nil => intro init hx; exact absurd hx (List.not_mem_nil x)
  | cons a as ih =>
    intro init hx
    rcases List.mem_cons.mp hx with rfl | hx
    · exact le_trans (le_max_right init x) (foldlMaxInitLe as (max init x))
    · exact ih (max init a) hx

end HelperLemmas

/-- C1: cache round-trip and the default TTL.  For a key set under one of
the effective categories, an immediate `get` returns the value and a `get`
at or after `now + ttl(cat)` returns absent.  But for a category outside
the effective table — including the nominal `default` category itself —
the claimed default TTL is not applied: the stored expiry is
`Date.now() + undefined = NaN`, so even an immediate `get` returns absent
and the round-trip fails. -/
theorem c1_cache_roundtrip_default_ttl :
    (getFromCache (setCache (MetaCache.empty ℕ) "k" 42 "account" 0) "k" 0).1 =
        some 42 ∧
      (getFromCache (setCache (MetaCache.empty ℕ) "k" 42 "account" 0) "k"
          599999).1 = some 42 ∧
      (getFromCache (setCache (MetaCache.empty ℕ) "k" 42 "account" 0) "k"
          600000).1 = none ∧
      (getFromCache (setCache (MetaCache.empty ℕ) "k" 42 "default" 0) "k" 0).1 =
        none ∧
      (getFromCache (setCache (MetaCache.empty ℕ) "k" 42 "ad_insights" 0) "k"
          0).1 = none := by
  decide

/-- C3: if spend is `0` or impressions are `0`, `calculatePerformanceScore`
returns exactly `0`, whatever the other fields hold. -/
theorem c3_zero_delivery_zero_score (insights : Insights)
    (h : insights.spend = 0 ∨ insights.impressions = 0) :
    calculatePerformanceScore insights = 0 := by
  unfold calculatePerformanceScore
  rw [if_pos h]

/-- C3 witness: a record with zero spend but large values in every other
field still scores `0`. -/
theorem c3_zero_delivery_zero_score_witness :
    calculatePerformanceScore
        ⟨0, 5000, 999, 7, 1, 1/10, [⟨"link_click", 999⟩],
          [⟨"purchase", 100000⟩]⟩ = 0 :=
  c3_zero_delivery_zero_score _ (Or.inl rfl)

/-- C4: for every metrics record and positive spend, the ROAS sub-score is
exactly the spec's tier table applied to
`roas = conversion value / spend`; in particular spend 100.00 with a
purchase conversion value of 250.00 yields roas `5/2` and sub-score 80. -/
theorem c4_roas_tier_table :
    (∀ (insights : Insights) (spend : ℚ), 0 < spend →
        calculateROASScore insights spend =
          roasTierSpec (totalConversionValue insights / spend)) ∧
      totalConversionValue c4Example / 100 = 5/2 ∧
      calculateROASScore c4Example 100 = 80 := by
  have h1 : totalConversionValue c4Example = 250 := by decide
  refine ⟨fun insights spend h => ?_, ?_, ?_⟩
  · unfold calculateROASScore
    rw [if_neg (ne_of_gt h)]
    rfl
  · rw [h1]; norm_num
  · unfold calculateROASScore
    rw [if_neg (by norm_num : (100:ℚ) ≠ 0), h1]
    norm_num [roasTierCode]

/-- C4 witness: the table equation instantiated at the end-to-end
scenario's record and spend. -/
theorem c4_roas_tier_table_witness :
    calculateROASScore c4Example 100 =
      roasTierSpec (totalConversionValue c4Example / 100) :=
  c4_roas_tier_table.1 c4Example 100 (by norm_num)

/-- C5: the resolved result count of `getResultsData` is the maximum of the
reported purchase-type action values, never their sum: every reported
purchase-type value is a lower bound of the resolved count, and for the
overlapping reports 5, 5, 8 the resolved count is `8`, not `5 + 5 + 8 = 18`. -/
theorem c5_purchase_dedup_by_max :
    (∀ (spend : ℚ) (actions : List ActionEntry), ∀ a ∈ actions,
        isPurchaseActionType a.action_type = true →
          jsTrunc a.value ≤ (getResultsData spend actions).1) ∧
      (getResultsData 10 c5Example).1 = 8 ∧
      (5 : ℤ) + 5 + 8 = 18 ∧ (getResultsData 10 c5Example).1 ≠ 18 := by
  refine ⟨?_, by decide, by decide, by decide⟩
  intro spend actions a ha hp
  have hfil : a ∈ actions.filter (fun a => isPurchaseActionType a.action_type) :=
    List.mem_filter.mpr ⟨ha, hp⟩
  have hmem : jsTrunc a.value ∈
      (actions.filter (fun a => isPurchaseActionType a.action_type)).map
        (fun a => jsTrunc a.value) :=
    List.mem_map.mpr ⟨a, hfil, rfl⟩
  simpa [getResultsData] using memLeFoldlMax (jsTrunc a.value) _ 0 hmem

/-- C5 witness: the lower-bound property instantiated at the third report
of the 5, 5, 8 example. -/
theorem c5_purchase_dedup_by_max_witness :
    jsTrunc ((8 : ℚ)) ≤ (getResultsData 10 c5Example).1 :=
  c5_purchase_dedup_by_max.1 10 c5Example ⟨"omni_purchase", 8⟩ (by decide)
    (by decide)

/-- C6 counterexample: total spend 100, account conversions N = 1 with
conversion value V = 100, ad spend 10.  The claim allocates this ad
`V·s/S = 10` of value; the code computes
`adConversions = round(1 · 10/100) = 0` and the value entry is only pushed
inside the `adConversions > 0` branch, so the ad receives value `0`. -/
theorem c6_value_dropped_counterexample :
    allocateProportional 100 1 100 10 = (0, 0) ∧
      (100 : ℚ) * (10 / 100) = 10 ∧ (0 : ℚ) ≠ 10 := by
  refine ⟨?_, by norm_num, by norm_num⟩
  unfold allocateProportional
  rw [if_pos (by constructor <;> norm_num)]
  have hr : jsRound (((1 : ℤ) : ℚ) * ((10 : ℚ) / 100)) = 0 := by
    unfold jsRound
    norm_num
  rw [if_neg (by rw [hr]; exact lt_irrefl 0)]

/-- C6 (amended): with positive total spend, nonnegative account totals and
positive ad spend, an ad receives `round(N·s/S)` conversions, and it
receives `V·s/S` of conversion value only when that rounded conversion
count is positive (otherwise zero value, as the counterexample forces); an
ad with zero spend receives zero conversions and zero value; and spends 30
and 70 out of a total of 100 with `N = 10` conversions allocate `3` and
`7`. -/
theorem c6_proportional_fallback :
    (∀ (S V s : ℚ) (N : ℤ), 0 < S → 0 < s → 0 ≤ V → 0 ≤ N →
        allocateProportional S N V s =
          (jsRound ((N : ℚ) * (s / S)),
            if jsRound ((N : ℚ) * (s / S)) > 0 then V * (s / S) else 0)) ∧
      (∀ (S V : ℚ) (N : ℤ), allocateProportional S N V 0 = (0, 0)) ∧
      allocateProportional 100 10 0 30 = (3, 0) ∧
      allocateProportional 100 10 0 70 = (7, 0) := by
  have hmain : ∀ (S V s : ℚ) (N : ℤ), 0 < S → 0 < s → 0 ≤ V → 0 ≤ N →
      allocateProportional S N V s =
        (jsRound ((N : ℚ) * (s / S)),
          if jsRound ((N : ℚ) * (s / S)) > 0 then V * (s / S) else 0) := by
    intro S V s N hS hs hV hN
    have hratio : (0 : ℚ) ≤ s / S := le_of_lt (div_pos hs hS)
    have hx : (0 : ℚ) ≤ (N : ℚ) * (s / S) :=
      mul_nonneg (by exact_mod_cast hN) hratio
    have hr : 0 ≤ jsRound ((N : ℚ) * (s / S)) := by
      unfold jsRound
      exact Int.floor_nonneg.mpr (by linarith)
    unfold allocateProportional
    rw [if_pos ⟨hS, hs⟩]
    by_cases h : jsRound ((N : ℚ) * (s / S)) > 0
    · rw [if_pos h, if_pos h]
      have hv : (if V * (s / S) > 0 then V * (s / S) else 0) = V * (s / S) := by
        by_cases hv0 : V * (s / S) > 0
        · rw [if_pos hv0]
        · rw [if_neg hv0, le_antisymm (not_lt.mp hv0) (mul_nonneg hV hratio)]
      rw [hv]
    · rw [if_neg h, if_neg h, le_antisymm (not_lt.mp h) hr]
  refine ⟨hmain, ?_, ?_, ?_⟩
  · intro S V N
    unfold allocateProportional
    rw [if_neg (fun hc => lt_irrefl (0 : ℚ) hc.2)]
  · rw [hmain 100 0 30 10 (by norm_num) (by norm_num) (by norm_num)
      (by norm_num)]
    have hr : jsRound (((10 : ℤ) : ℚ) * ((30 : ℚ) / 100)) = 3 := by
      unfold jsRound
      norm_num
    rw [hr]
    norm_num
  · rw [hmain 100 0 70 10 (by norm_num) (by norm_num) (by norm_num)
      (by norm_num)]
    have hr : jsRound (((10 : ℤ) : ℚ) * ((70 : ℚ) / 100)) = 7 := by
      unfold jsRound
      norm_num
    rw [hr]
    norm_num

/-- C6 witness: the amended allocation equation instantiated at total spend
100, 10 account conversions, account value 200 and ad spend 30. -/
theorem c6_proportional_fallback_witness :
    allocateProportional 100 10 200 30 =
      (jsRound (((10 : ℤ) : ℚ) * (30 / 100)),
        if jsRound (((10 : ℤ) : ℚ) * (30 / 100)) > 0 then (200 : ℚ) * (30 / 100)
        else 0) :=
  c6_proportional_fallback.1 100 200 30 10 (by norm_num) (by norm_num)
    (by norm_num) (by norm_num)

/-- Every result of an up chain with descending values is at most any
upper bound of its values (and at least as large as 0 is). -/
theorem upChain_le (B : ℤ) :
    ∀ (l : List (TCmp × ℚ × ℤ)) (x : ℚ), upDescending l →
      (∀ e ∈ l, e.2.2 ≤ B) → 0 ≤ B → upChain l x ≤ B := by
  intro l
  induction l with
  | nil => intro x _ _ h0; simpa [upChain] using h0
  | cons e rest ih =>
    intro x hd hB h0
    obtain ⟨c, t, v⟩ := e
    obtain ⟨hv, hb, hrest⟩ := hd
    have hBrest : ∀ e ∈ rest, e.2.2 ≤ B :=
      fun e he => hB e (List.mem_cons_of_mem _ he)
    have hBv : v ≤ B := hB (c, t, v) (List.mem_cons_self _ _)
    cases c
    · rw [upChain]
      split_ifs
      · exact hBv
      · exact ih x hrest hBrest h0
    · rw [upChain]
      split_ifs
      · exact hBv
      · exact ih x hrest hBrest h0

/-- An up chain with descending values is monotone. -/
theorem upChain_mono :
    ∀ (l : List (TCmp × ℚ × ℤ)) (x y : ℚ), x ≤ y → upDescending l →
      upChain l x ≤ upChain l y := by
  intro l
  induction l with
  | nil => intro x y _ _; simp [upChain]
  | cons e rest ih =>
    intro x y h hd
    obtain ⟨c, t, v⟩ := e
    obtain ⟨hv, hb, hrest⟩ := hd
    cases c
    · rw [upChain, upChain]
      by_cases hx : x ≥ t
      · rw [if_pos hx, if_pos (le_trans hx h)]
      · rw [if_neg hx]
        by_cases hy : y ≥ t
        · rw [if_pos hy]
          exact upChain_le v rest x hrest hb hv
        · rw [if_neg hy]
          exact ih x y h hrest
    · rw [upChain, upChain]
      by_cases hx : x > t
      · rw [if_pos hx, if_pos (lt_of_lt_of_le hx h)]
      · rw [if_neg hx]
        by_cases hy : y > t
        · rw [if_pos hy]
          exact upChain_le v rest x hrest hb hv
        · rw [if_neg hy]
          exact ih x y h hrest

/-- Every result of a down chain with descending values is at most any
upper bound of its values. -/
theorem downChain_le (B : ℤ) :
    ∀ (l : List (ℚ × ℤ)) (x : ℚ), downDescending l →
      (∀ e ∈ l, e.2 ≤ B) → 0 ≤ B → downChain l x ≤ B := by
  intro l
  induction l with
  | nil => intro x _ _ h0; simpa [downChain] using h0
  | cons e rest ih =>
    intro x hd hB h0
    obtain ⟨t, v⟩ := e
    obtain ⟨hv, hb, hrest⟩ := hd
    rw [downChain]
    split_ifs
    · exact hB (t, v) (List.mem_cons_self _ _)
    · exact ih x hrest (fun e he => hB e (List.mem_cons_of_mem _ he)) h0

/-- A down chain with descending values is antitone. -/
theorem downChain_anti :
    ∀ (l : List (ℚ × ℤ)) (x y : ℚ), x ≤ y → downDescending l →
      downChain l y ≤ downChain l x := by
  intro l
  induction l with
  | nil => intro x y _ _; simp [downChain]
  | cons e rest ih =>
    intro x y h hd
    obtain ⟨t, v⟩ := e
    obtain ⟨hv, hb, hrest⟩ := hd
    rw [downChain, downChain]
    by_cases hx : x ≤ t
    · rw [if_pos hx]
      by_cases hy : y ≤ t
      · rw [if_pos hy]
      · rw [if_neg hy]
        exact downChain_le v rest y hrest hb hv
    · rw [if_neg hx, if_neg (fun hy => hx (le_trans h hy))]
      exact ih x y h hrest

/-- The embedded ROAS tier chain is the up chain of its table. -/
theorem roasTierCode_eq_chain (x : ℚ) : roasTierCode x = upChain roasChain x :=
  rfl

/-- The embedded CTR tier chain is the up chain of its table. -/
theorem calculateCTRScore_eq_chain (x : ℚ) :
    calculateCTRScore x = upChain ctrChain x := rfl

/-- The embedded CPM tier chain is the down chain of its table. -/
theorem calculateCPMScore_eq_chain (x : ℚ) :
    calculateCPMScore x = downChain cpmChain x := rfl

/-- With a nonzero click count, the embedded CPC tier chain is the down
chain of its table. -/
theorem calculateCPCScore_eq_chain (x : ℚ) (clicks : ℤ) (h : clicks ≠ 0) :
    calculateCPCScore x clicks = downChain cpcChain x := by
  unfold calculateCPCScore
  rw [if_neg h]
  rfl


/-- C9: each sub-score tier function is monotone in its threshold variable:
the ROAS and CTR tiers are nondecreasing, and the CPM and CPC tiers are
nonincreasing (for CPC with any fixed positive click count). -/
theorem c9_subscore_monotone :
    (∀ x y : ℚ, x ≤ y → roasTierCode x ≤ roasTierCode y) ∧
      (∀ x y : ℚ, x ≤ y → calculateCTRScore x ≤ calculateCTRScore y) ∧
      (∀ x y : ℚ, x ≤ y → calculateCPMScore y ≤ calculateCPMScore x) ∧
      (∀ (clicks : ℤ), 0 < clicks → ∀ x y : ℚ, x ≤ y →
        calculateCPCScore y clicks ≤ calculateCPCScore x clicks) := by
  have hroas : upDescending roasChain := by simp [upDescending, roasChain]
  have hctr : upDescending ctrChain := by simp [upDescending, ctrChain]
  have hcpm : downDescending cpmChain := by simp [downDescending, cpmChain]
  have hcpc : downDescending cpcChain := by simp [downDescending, cpcChain]
  refine ⟨?_, ?_, ?_, ?_⟩
  · intro x y h
    rw [roasTierCode_eq_chain, roasTierCode_eq_chain]
    exact upChain_mono roasChain x y h hroas
  · intro x y h
    rw [calculateCTRScore_eq_chain, calculateCTRScore_eq_chain]
    exact upChain_mono ctrChain x y h hctr
  · intro x y h
    rw [calculateCPMScore_eq_chain, calculateCPMScore_eq_chain]
    exact downChain_anti cpmChain x y h hcpm
  · intro clicks hc x y h
    rw [calculateCPCScore_eq_chain y clicks (ne_of_gt hc),
      calculateCPCScore_eq_chain x clicks (ne_of_gt hc)]
    exact downChain_anti cpcChain x y h hcpc

/-- C9 witness: the four monotonicity statements instantiated at concrete
inputs. -/
theorem c9_subscore_monotone_witness :
    roasTierCode 1 ≤ roasTierCode 3 ∧
      calculateCTRScore 0 ≤ calculateCTRScore 2 ∧
      calculateCPMScore 20 ≤ calculateCPMScore 6 ∧
      calculateCPCScore 2 5 ≤ calculateCPCScore 1 5 :=
  ⟨c9_subscore_monotone.1 1 3 (by norm_num),
    c9_subscore_monotone.2.1 0 2 (by norm_num),
    c9_subscore_monotone.2.2.1 6 20 (by norm_num),
    c9_subscore_monotone.2.2.2 5 (by norm_num) 1 2 (by norm_num)⟩

/-- C10: the class body defines `getAdInsights` twice (the batch variant at
line 665, the per-ad variant at line 978); under JavaScript class
semantics the later definition overwrites the earlier, so every dispatch
of `getAdInsights` — including the route handler's call passing an options
object — resolves to the per-ad variant, and no method name resolves to
the batch variant. -/
theorem c10_per_ad_variant_shadows_batch :
    jsClassMethod metaServiceGetAdInsightsDefs "getAdInsights" =
        some AdInsightsVariant.perAd ∧
      ∀ name : String,
        jsClassMethod metaServiceGetAdInsightsDefs name =
            some AdInsightsVariant.perAd ∨
          jsClassMethod metaServiceGetAdInsightsDefs name = none := by
  constructor
  · rfl
  · intro name
    by_cases h : "getAdInsights" = name
    · left
      simp [jsClassMethod, metaServiceGetAdInsightsDefs, h]
    · right
      simp [jsClassMethod, metaServiceGetAdInsightsDefs, h]

/-- C2 counterexample: requested single day `2024-01-02`; the first
approach's request succeeds with a record reporting `2024-01-01`, which
does not match the requested date.  The claim requires the loop to move on
to the next (date-matching) approach, but the per-ad `getAdInsights` loop
accepts the first response and stops. -/
theorem c2_per_ad_accepts_mismatch_counterexample :
    perAdGetAdInsightsLoop
        [FetchOutcome.ok [c2MismatchRecord], FetchOutcome.ok [c2MatchRecord]] =
        some c2MismatchRecord ∧
      hasDateSpecificData c2MismatchRecord "2024-01-02" = false ∧
      hasDateSpecificData c2MatchRecord "2024-01-02" = true := by
  refine ⟨rfl, by decide, by decide⟩

/-- C2 (amended): the batch `getAdInsights` loop and the
`getAdSpecificInsights` loop accept a variant only when its response's
first record passes the strict requested-date check, trying the next
variant otherwise; but the per-ad `getAdInsights` loop accepts the first
variant whose request succeeds regardless of the reported dates — its
result is exactly the first successful response's leading record (or the
`{}` default), so a date mismatch does not cause the next variant to be
tried there. -/
theorem c2_strategy_acceptance :
    (∀ (since : String) (outcomes : List FetchOutcome)
        (data : List InsightRecord),
        batchGetAdInsightsLoop since outcomes = some data →
          ∃ firstAd rest, data = firstAd :: rest ∧
            hasDateSpecificData firstAd since = true) ∧
      (∀ (since : String) (outcomes : List FetchOutcome) (d : InsightRecord),
        adSpecificInsightsLoop since outcomes = some d →
          hasDateSpecificData d since = true) ∧
      (∀ outcomes : List FetchOutcome,
        perAdGetAdInsightsLoop outcomes =
          (outcomes.filterMap fun o =>
            match o with
            | FetchOutcome.ok data => some (data.headD emptyInsightRecord)
            | FetchOutcome.err => none).head?) := by
  refine ⟨?_, ?_, ?_⟩
  · intro since outcomes
    induction outcomes with
    | nil => intro data h; exact absurd h (by simp [batchGetAdInsightsLoop])
    | cons o rest ih =>
      intro data h
      match o with
      | FetchOutcome.err =>
          exact ih data (by simpa [batchGetAdInsightsLoop] using h)
      | FetchOutcome.ok [] =>
          exact ih data (by simpa [batchGetAdInsightsLoop] using h)
      | FetchOutcome.ok (firstAd :: tl) =>
          rw [batchGetAdInsightsLoop] at h
          by_cases hd : hasDateSpecificData firstAd since = true
          · rw [if_pos hd] at h
            exact ⟨firstAd, tl, (Option.some.inj h).symm, hd⟩
          · rw [if_neg hd] at h
            exact ih data h
  · intro since outcomes
    induction outcomes with
    | nil => intro d h; exact absurd h (by simp [adSpecificInsightsLoop])
    | cons o rest ih =>
      intro d h
      match o with
      | FetchOutcome.err =>
          exact ih d (by simpa [adSpecificInsightsLoop] using h)
      | FetchOutcome.ok [] =>
          exact ih d (by simpa [adSpecificInsightsLoop] using h)
      | FetchOutcome.ok (r :: tl) =>
          rw [adSpecificInsightsLoop] at h
          by_cases hd : hasDateSpecificData r since = true
          · rw [if_pos hd] at h
            rw [← Option.some.inj h]
            exact hd
          · rw [if_neg hd] at h
            exact ih d h
  · intro outcomes
    induction outcomes with
    | nil => rfl
    | cons o rest ih =>
      match o with
      | FetchOutcome.err => simpa [perAdGetAdInsightsLoop] using ih
      | FetchOutcome.ok data => simp [perAdGetAdInsightsLoop]

/-- C2 witness: the strict acceptance of `getAdSpecificInsights`
instantiated at a concrete matching run. -/
theorem c2_strategy_acceptance_witness :
    hasDateSpecificData c2MatchRecord "2024-01-02" = true :=
  c2_strategy_acceptance.2.1 "2024-01-02" [FetchOutcome.ok [c2MatchRecord]]
    c2MatchRecord (by decide)

/-- C7 counterexample: requests 1, 2, 3 enqueued in that order, none
rate-limited: request 1 succeeds instantly, request 2 fails with a generic
(non-429) error after 5 ms, request 3 succeeds.  The dispatch order is
FIFO, but `lastRequestTime` is advanced only after a successful attempt
(line 231), so request 3 is dispatched at 55 — only 5 ms after request 2's
dispatch at 50, violating the claimed ≥ `requestDelay` spacing. -/
theorem c7_spacing_counterexample :
    dispatches (drain [⟨1, [Outcome.success 0]⟩, ⟨2, [Outcome.failure 5]⟩,
        ⟨3, [Outcome.success 0]⟩] 0 0) = [(1, 25), (2, 50), (3, 55)] ∧
      (∀ r ∈ ([⟨1, [Outcome.success 0]⟩, ⟨2, [Outcome.failure 5]⟩,
          ⟨3, [Outcome.success 0]⟩] : List QueuedRequest), ∀ o ∈ r.outcomes,
          isRateLimited o = false) ∧
      ¬ List.Chain' (fun a b : ℕ × ℕ => a.2 + requestDelay ≤ b.2)
          [((1 : ℕ), (25 : ℕ)), (2, 50), (3, 55)] := by
  refine ⟨by decide, by decide, ?_⟩
  intro hchain
  have h : (50 : ℕ) + 25 ≤ 55 :=
    (List.chain'_cons.mp (List.chain'_cons.mp hchain).2).1
  omega

/-- C7 (amended): with no rate-limited requests the drain dispatches the
queue in FIFO order even when some requests fail; the ≥ `requestDelay`
spacing between consecutive dispatches holds when every request succeeds —
the code advances `lastRequestTime` only after a successful attempt, so a
dispatch following a failed request is throttled only against the last
successful one (as the counterexample forces); and a
`processRequestQueue` call made while a drain loop is already running is a
no-op. -/
theorem c7_fifo_and_spacing :
    (∀ (qs : List QueuedRequest) (l n : ℕ),
        (∀ r ∈ qs, ∃ o os, r.outcomes = o :: os ∧ isRateLimited o = false) →
          (dispatches (drain qs l n)).map Prod.fst = qs.map (fun r => r.id)) ∧
      (∀ (qs : List QueuedRequest) (l n : ℕ),
        (∀ r ∈ qs, ∃ d, r.outcomes = [Outcome.success d]) →
          List.Chain' (fun a b : ℕ × ℕ => a.2 + requestDelay ≤ b.2)
            (dispatches (drain qs l n))) ∧
      ∀ (st : ThrottleState) (now : ℕ), st.isProcessingQueue = true →
        processRequestQueue st now = [] := by
  refine ⟨drainNoRateLimitFIFO, ?_, ?_⟩
  · intro qs l n hall
    exact (drainSuccessSpec qs l n hall).2.2
  · intro st now h
    simp [processRequestQueue, h]

/-- C7 witness: the FIFO conjunct instantiated at a run containing a
generic failure, the spacing conjunct at an all-success run. -/
theorem c7_fifo_and_spacing_witness :
    (dispatches (drain [⟨1, [Outcome.success 10]⟩, ⟨2, [Outcome.failure 5]⟩,
          ⟨3, [Outcome.success 0]⟩] 0 0)).map Prod.fst = [1, 2, 3] ∧
      List.Chain' (fun a b : ℕ × ℕ => a.2 + requestDelay ≤ b.2)
        (dispatches (drain [⟨4, [Outcome.success 10]⟩,
          ⟨5, [Outcome.success 0]⟩] 0 0)) := by
  constructor
  · have hall : ∀ r ∈ ([⟨1, [Outcome.success 10]⟩, ⟨2, [Outcome.failure 5]⟩,
        ⟨3, [Outcome.success 0]⟩] : List QueuedRequest),
        ∃ o os, r.outcomes = o :: os ∧ isRateLimited o = false := by
      intro r hr
      simp only [List.mem_cons, List.not_mem_nil, or_false] at hr
      rcases hr with rfl | rfl | rfl
      · exact ⟨Outcome.success 10, [], rfl, rfl⟩
      · exact ⟨Outcome.failure 5, [], rfl, rfl⟩
      · exact ⟨Outcome.success 0, [], rfl, rfl⟩
    simpa using c7_fifo_and_spacing.1 _ 0 0 hall
  · have hall : ∀ r ∈ ([⟨4, [Outcome.success 10]⟩, ⟨5, [Outcome.success 0]⟩] :
        List QueuedRequest), ∃ d, r.outcomes = [Outcome.success d] := by
      intro r hr
      simp only [List.mem_cons, List.not_mem_nil, or_false] at hr
      rcases hr with rfl | rfl
      · exact ⟨10, rfl⟩
      · exact ⟨0, rfl⟩
    exact c7_fifo_and_spacing.2.1 _ 0 0 hall

/-- C8: a rate-limited request B is not failed: it is re-dispatched, after
at least the fixed backoff, before the later-enqueued request C is
attempted, and B's eventual outcome (resolution or rejection) is delivered
under B's identity; a non-rate-limit failure is delivered to its caller as
a rejection immediately, with no retry. -/
theorem c8_rate_limit_requeue :
    (∀ (b c : QueuedRequest) (d db dc l n : ℕ),
        b.outcomes = [Outcome.rateLimited d, Outcome.success db] →
        c.outcomes = [Outcome.success dc] →
        ∃ t1 t2 t3,
          drain [b, c] l n =
            [Event.dispatch b.id t1, Event.dispatch b.id t2,
              Event.resolve b.id, Event.dispatch c.id t3,
              Event.resolve c.id] ∧
            t1 + rateLimitBackoff ≤ t2 ∧ t2 ≤ t3) ∧
      (∀ (b c : QueuedRequest) (d db dc l n : ℕ),
        b.outcomes = [Outcome.rateLimited d, Outcome.failure db] →
        c.outcomes = [Outcome.success dc] →
        ∃ t1 t2 t3,
          drain [b, c] l n =
            [Event.dispatch b.id t1, Event.dispatch b.id t2,
              Event.reject b.id, Event.dispatch c.id t3,
              Event.resolve c.id] ∧
            t1 + rateLimitBackoff ≤ t2 ∧ t2 ≤ t3) ∧
      (∀ (b : QueuedRequest) (rest : List QueuedRequest) (d : ℕ)
        (os : List Outcome) (l n : ℕ),
        b.outcomes = Outcome.failure d :: os →
        drain (b :: rest) l n =
          Event.dispatch b.id (max n (l + requestDelay)) ::
            Event.reject b.id ::
              drain rest l (max n (l + requestDelay) + d)) := by
  refine ⟨?_, ?_, ?_⟩
  · intro b c d db dc l n hb hc
    rw [drain_cons_rateLimited b [c] d [Outcome.success db] l n hb]
    rw [drain_cons_success { b with outcomes := [Outcome.success db] } [c] db
      [] _ _ rfl]
    rw [drain_cons_success c [] dc [] _ _ hc]
    rw [drain_nil]
    refine ⟨max n (l + requestDelay), _, _, rfl, ?_, ?_⟩
    · exact le_trans (by omega) (Nat.le_max_left _ _)
    · exact le_trans (Nat.le_add_right _ _) (Nat.le_max_left _ _)
  · intro b c d db dc l n hb hc
    rw [drain_cons_rateLimited b [c] d [Outcome.failure db] l n hb]
    rw [drain_cons_failure { b with outcomes := [Outcome.failure db] } [c] db
      [] _ _ rfl]
    rw [drain_cons_success c [] dc [] _ _ hc]
    rw [drain_nil]
    refine ⟨max n (l + requestDelay), _, _, rfl, ?_, ?_⟩
    · exact le_trans (by omega) (Nat.le_max_left _ _)
    · exact le_trans (Nat.le_add_right _ _) (Nat.le_max_left _ _)
  · intro b rest d os l n hb
    exact drain_cons_failure b rest d os l n hb

/-- C8 witness: the requeue behaviour instantiated at a concrete pair of
requests: B is rate-limited once then succeeds, C succeeds. -/
theorem c8_rate_limit_requeue_witness :
    ∃ t1 t2 t3,
      drain [⟨7, [Outcome.rateLimited 2, Outcome.success 3]⟩,
          ⟨8, [Outcome.success 1]⟩] 0 0 =
        [Event.dispatch 7 t1, Event.dispatch 7 t2, Event.resolve 7,
          Event.dispatch 8 t3, Event.resolve 8] ∧
        t1 + rateLimitBackoff ≤ t2 ∧ t2 ≤ t3 :=
  c8_rate_limit_requeue.1 ⟨7, [Outcome.rateLimited 2, Outcome.success 3]⟩
    ⟨8, [Outcome.success 1]⟩ 2 3 1 0 0 rfl rfl
